import Mathlib

/-!
Verification development for the storage gateway and crash-safe move
protocol of this repository (a media-management backend with local and
S3-compatible storage).

The definitions below are a shallow embedding of the TypeScript source:
`StorageRepository` (path classification, S3 credential resolution,
rename dispatch, existence check, temporary-file naming) and
`StorageCore.moveFile` (the move coordinator) together with
`verifyNewPathContentsMatchesExpected`.  Effectful operations are
modelled by explicit state passing over a `World` record plus a trace of
I/O events; fallible operations return `Except`.
-/

namespace Immich

/-! ## String helpers

The source manipulates paths with JavaScript's `split('/')`,
`startsWith`, `endsWith`, `includes('.')`, `join('/')` and node's
`path.basename`/`path.dirname`.  We model them on `String.data`
(lists of characters) with structural recursion so that all
definitions evaluate by kernel reduction. -/

/-- Split a character list at every occurrence of `c`; mirrors
JavaScript `String.prototype.split` with a one-character separator
(`"".split(c) = [""]`, separators at the ends produce empty pieces). -/
def charSplitAux (c : Char) : List Char → List Char → List String
  | [], acc => [String.mk acc.reverse]
  | x :: xs, acc =>
    if x = c then String.mk acc.reverse :: charSplitAux c xs []
    else charSplitAux c xs (x :: acc)

/-- JavaScript `s.split('/')`. -/
def splitSlash (s : String) : List String :=
  charSplitAux '/' s.data []

/-- JavaScript `s.startsWith(p)`. -/
def strStartsWith (s p : String) : Bool :=
  p.data.isPrefixOf s.data

/-- JavaScript `s.endsWith(p)`. -/
def strEndsWith (s p : String) : Bool :=
  p.data.isSuffixOf s.data

/-- JavaScript `s.includes('.')` for a single character. -/
def strContainsChar (s : String) (c : Char) : Bool :=
  s.data.contains c

/-- JavaScript `parts.join('/')`. -/
def joinSlash : List String → String
  | [] => ""
  | [x] => x
  | x :: xs => x ++ "/" ++ joinSlash xs

/-- node `path.basename`: the substring after the last `/` (for paths
without trailing slashes, the only shape the bridge feeds it). -/
def posixBasename (s : String) : String :=
  (splitSlash s).getLastD ""

/-- node `path.dirname`: everything before the last `/`; `"."` when the
path has no slash. -/
def posixDirname (s : String) : String :=
  match (splitSlash s).dropLast with
  | [] => "."
  | [""] => "/"
  | parts => joinSlash parts

/-! ## StorageRepository: path classification

Shallow embedding of `parseCloudPath`, `detectCloudProvider`,
`isCloudPath` and `isRemote` from `storage.repository.ts`. -/

/-- Components of a cloud path `<host>/<bucket>/<key>`. -/
structure ParsedCloudPath where
  host : String
  bucket : String
  key : String
deriving DecidableEq, Repr

/-- Cloud providers distinguished by `detectCloudProvider`. -/
inductive CloudProvider where
  | s3
  | azure
  | gcs
  | unknown
deriving DecidableEq, Repr

/-- Model of `parseCloudPath(filepath)`: fewer than 3 `/`-segments is an error;
otherwise host is the first segment, bucket the second, and the key the
remaining segments re-joined with `/`. -/
def parseCloudPath (filepath : String) : Except String ParsedCloudPath :=
  let parts := splitSlash filepath
  if parts.length < 3 then
    .error ("Invalid cloud storage path format: " ++ filepath)
  else
    .ok ⟨parts.headI, (parts.drop 1).headI, joinSlash (parts.drop 2)⟩

/-- Model of `detectCloudProvider(host)`: Amazon S3 by `.amazonaws.com` suffix,
Azure by `.blob.core.windows.net` suffix, GCS for exactly
`storage.googleapis.com`; every other host is assumed S3-compatible. -/
def detectCloudProvider (host : String) : CloudProvider :=
  if strEndsWith host ".amazonaws.com" then .s3
  else if strEndsWith host ".blob.core.windows.net" then .azure
  else if host = "storage.googleapis.com" then .gcs
  else .s3

/-- Model of `isCloudPath(filepath)`: false for empty (falsy) input and paths
starting with `/`; otherwise true iff splitting on `/` yields at least
3 segments whose first segment contains a dot. -/
def isCloudPath (filepath : String) : Bool :=
  if filepath = "" then false
  else if strStartsWith filepath "/" then false
  else
    let parts := splitSlash filepath
    if 3 ≤ parts.length ∧ strContainsChar parts.headI '.' then true
    else false

/-- Model of `isRemote(filepath)`: a cloud path whose host resolves to the
S3-compatible provider. -/
def isRemote (filepath : String) : Bool :=
  if ¬ isCloudPath filepath then false
  else
    match parseCloudPath filepath with
    | .error _ => false
    | .ok pc => detectCloudProvider pc.host = CloudProvider.s3

/-! ## StorageRepository: credentials and clients

`getS3Credentials` resolves provider credentials by endpoint hostname;
`getS3Client` builds (and caches) a client from them.  Environment
variables are modelled by `S3Env`; the client cache does not affect any
observable claim, so `getS3Client` is modelled as credential
resolution. -/

/-- Which provider credential pairs are present in the environment. -/
structure S3Env where
  tigrisCreds : Bool
  wasabiCreds : Bool
  awsCreds : Bool
deriving DecidableEq, Repr

/-- Resolved credentials/region for an endpoint. -/
structure S3Creds where
  provider : String
  region : String
deriving DecidableEq, Repr

/-- Region extraction mirroring the regexes
`^s3\.([^.]+)\.wasabisys\.com$` and `^s3\.([^.]+)\.amazonaws\.com$`:
strip the `s3.` prefix and the provider suffix; the remainder matches
when it is nonempty and dot-free, else the region falls back to
`us-east-1`. -/
def extractRegion (endpoint : String) (suffix : String) : String :=
  if strStartsWith endpoint "s3." ∧ strEndsWith endpoint suffix then
    let middle := String.mk ((endpoint.data.drop 3).take
      (endpoint.data.length - 3 - suffix.data.length))
    if middle ≠ "" ∧ ¬ strContainsChar middle '.' then middle else "us-east-1"
  else "us-east-1"

/-- Model of `getS3Credentials(endpoint)`: Tigris by exact host, Wasabi by
`.wasabisys.com` suffix, AWS by `.amazonaws.com` suffix; an unsupported
endpoint or missing provider credentials raise an error. -/
def getS3Credentials (env : S3Env) (endpoint : String) : Except String S3Creds :=
  if endpoint = "fly.storage.tigris.dev" ∨ endpoint = "t3.storage.dev" then
    if env.tigrisCreds then .ok ⟨"Tigris", "auto"⟩
    else .error ("Tigris credentials not found for endpoint: " ++ endpoint)
  else if strEndsWith endpoint ".wasabisys.com" then
    if env.wasabiCreds then .ok ⟨"Wasabi", extractRegion endpoint ".wasabisys.com"⟩
    else .error ("Wasabi credentials not found for endpoint: " ++ endpoint)
  else if strEndsWith endpoint ".amazonaws.com" then
    if env.awsCreds then .ok ⟨"AWS", extractRegion endpoint ".amazonaws.com"⟩
    else .error ("AWS credentials not found for endpoint: " ++ endpoint)
  else
    .error ("Unsupported S3 endpoint: " ++ endpoint)

/-- Model of `getS3Client(endpoint)`: succeeds exactly when credential
resolution succeeds (the per-endpoint cache is not observable). -/
def getS3Client (env : S3Env) (endpoint : String) : Except String S3Creds :=
  getS3Credentials env endpoint

/-! ## StorageRepository: remote operations

`checkFileExists` and `rename` act on an environment `RepoWorld`:
the set of accessible local files, the set of remote objects, fault
flags for the individual network sends, and the credential
environment. -/

/-- Network commands sent to the object store. -/
inductive S3Op where
  | headObject (clientHost bucket key : String)
  | copyObject (clientHost bucket copySource key : String)
  | deleteObject (clientHost bucket key : String)
deriving DecidableEq, Repr

/-- Environment for `StorageRepository` operations.  `localFiles` are
the paths `fs.access` succeeds on; `s3Objects` the `(host, bucket, key)`
triples a `HeadObject` finds; the `...NetOk` flags model network
success of the corresponding sends. -/
structure RepoWorld where
  env : S3Env
  localFiles : List String
  s3Objects : List (String × String × String)
  headNetOk : Bool
  copyNetOk : Bool
  deleteNetOk : Bool
deriving DecidableEq, Repr

/-- The `HeadObjectCommand` send: fails on network fault or missing
object. -/
def headObjectSend (w : RepoWorld) (host bucket key : String) : Except String Unit :=
  if ¬ w.headNetOk then .error "network error"
  else if (host, bucket, key) ∈ w.s3Objects then .ok ()
  else .error "NotFound"

/-- Model of `checkFileExists(filepath)`: local paths try `fs.access` and map
failure to `false`; remote paths parse, build a client and send a
`HeadObject`, with every failure caught and mapped to `false`. -/
def checkFileExists (w : RepoWorld) (filepath : String) : Bool :=
  if ¬ isRemote filepath then
    filepath ∈ w.localFiles
  else
    match parseCloudPath filepath with
    | .error _ => false
    | .ok pc =>
      match getS3Client w.env pc.host with
      | .error _ => false
      | .ok _ =>
        match headObjectSend w pc.host pc.bucket pc.key with
        | .ok _ => true
        | .error _ => false

/-- What `rename(source, target)` did. -/
inductive RenameAction where
  | fsRename (src dst : String)
  | s3Renamed
deriving DecidableEq, Repr

/-- Model of `unlink(file)` for a remote path, as invoked from `rename`: parse,
build a client for the *source* host, send `DeleteObject`; errors are
logged and re-thrown. -/
def unlinkRemote (w : RepoWorld) (file : String) : List S3Op × Except String Unit :=
  match parseCloudPath file with
  | .error e => ([], .error e)
  | .ok pc =>
    match getS3Client w.env pc.host with
    | .error e => ([], .error e)
    | .ok _ =>
      ([.deleteObject pc.host pc.bucket pc.key],
       if w.deleteNetOk then .ok () else .error "network error")

/-- Model of `rename(source, target)`: local→local delegates to `fs.rename`;
remote→remote in the same bucket is emulated as a server-side
`CopyObject` (client keyed by the target host) followed by `unlink` of
the source, with a cross-bucket pair rejected before any send; every
other combination is a cross-backend error. -/
def renameRepo (w : RepoWorld) (source target : String) :
    List S3Op × Except String RenameAction :=
  let sourceIsRemote := isRemote source
  let targetIsRemote := isRemote target
  if ¬ sourceIsRemote ∧ ¬ targetIsRemote then
    ([], .ok (.fsRename source target))
  else if sourceIsRemote ∧ targetIsRemote then
    match parseCloudPath source, parseCloudPath target with
    | .ok pcS, .ok pcT =>
      if pcS.bucket ≠ pcT.bucket then
        ([], .error ("Cannot rename between different remote storage buckets: "
          ++ pcS.bucket ++ " -> " ++ pcT.bucket))
      else
        match getS3Client w.env pcT.host with
        | .error e => ([], .error e)
        | .ok _ =>
          let copyOp := S3Op.copyObject pcT.host pcT.bucket
            (pcS.bucket ++ "/" ++ pcS.key) pcT.key
          if ¬ w.copyNetOk then
            ([copyOp], .error "network error")
          else
            let (delOps, delRes) := unlinkRemote w source
            ([copyOp] ++ delOps, delRes.map fun _ => .s3Renamed)
    | _, _ => ([], .error "Invalid cloud storage path format")
  else
    ([], .error ("Cannot rename between different storage backends: "
      ++ source ++ " -> " ++ target))

/-! ## StorageRepository: temporary names for the local-materialization bridge

`writeFile` names its temporary `immich-write-<Date.now()>-<basename>`,
`withLocalPath` names its `immich-<Date.now()>-<basename>`, both under
`tmpdir()`.  `Date.now()` (milliseconds) is passed explicitly. -/

/-- Temp name used by `writeFile` for a Remote destination. -/
def writeFileTempName (tmpdir : String) (now : Nat) (filepath : String) : String :=
  tmpdir ++ "/" ++ ("immich-write-" ++ toString now ++ "-" ++ posixBasename filepath)

/-- Temp name used by `withLocalPath` for a Remote source. -/
def withLocalPathTempName (tmpdir : String) (now : Nat) (filepath : String) : String :=
  tmpdir ++ "/" ++ ("immich-" ++ toString now ++ "-" ++ posixBasename filepath)

/-- One invocation of the bridge: an identity distinguishing the call,
the millisecond clock it observed, and the logical path it was given.
Two concurrent invocations are distinct calls that may observe the same
millisecond. -/
structure TempInvocation where
  callId : Nat
  now : Nat
  filepath : String
deriving DecidableEq, Repr

/-- The temporary name `writeFile` hands an invocation. -/
def tempNameOf (tmpdir : String) (inv : TempInvocation) : String :=
  writeFileTempName tmpdir inv.now inv.filepath

/-! ## StorageCore: data model

`moveFile` drives the storage gateway and the move-intent store.  The
world it acts on holds: the file map (path to size/checksum/timestamps,
uniform over backends as seen through the gateway), the move-intent
rows, the committed `(entity, path-kind)` paths written by `savePath`,
the `hashVerificationEnabled` configuration flag, and an environmental
fault injected into the one `rename` call (cross-device or otherwise),
which is how the backends signal `EXDEV` and other failures. -/

/-- Path kinds (`AssetPathType` plus `PersonPathType.Face`). -/
inductive PathType where
  | original
  | preview
  | thumbnail
  | fullSize
  | encodedVideo
  | sidecar
  | personFace
deriving DecidableEq, Repr

/-- Caller-supplied expected size and checksum (`MoveRequest.assetInfo`). -/
structure AssetInfo where
  sizeInBytes : Nat
  checksum : List Nat
deriving DecidableEq, Repr

/-- The `MoveRequest` record. -/
structure MoveRequest where
  entityId : String
  pathType : PathType
  oldPath : Option String
  newPath : String
  assetInfo : Option AssetInfo
deriving DecidableEq, Repr

/-- What `stat`/`hashFile` observe about a stored file. -/
structure FileData where
  size : Nat
  checksum : List Nat
  atimeMs : Int
  mtimeMs : Int
deriving DecidableEq, Repr

/-- A durable move-intent row. -/
structure MoveRow where
  id : Nat
  entityId : String
  pathType : PathType
  oldPath : String
  newPath : String
deriving DecidableEq, Repr

/-- Error codes carried by storage exceptions (`error.code`). -/
inductive ErrCode where
  | exdev
  | enoent
  | eio
deriving DecidableEq, Repr

/-- An exception escaping a gateway operation. -/
inductive IOErr where
  | enoent (path : String)
deriving DecidableEq, Repr

/-- The state `moveFile` reads and writes. -/
structure World where
  fs : List (String × FileData)
  moves : List MoveRow
  nextId : Nat
  commits : List ((String × PathType) × String)
  hashVerificationEnabled : Bool
  renameFault : Option ErrCode
deriving DecidableEq, Repr

/-- I/O events of one `moveFile` execution, in order. -/
inductive Event where
  | mkdirs (dir : String)
  | getIntent (entityId : String) (pathType : PathType)
  | checkExists (path : String) (found : Bool)
  | statFile (path : String)
  | hashOfFile (path : String)
  | createIntent (entityId : String) (pathType : PathType) (oldPath newPath : String)
  | updateIntent (id : Nat) (oldPath newPath : String)
  | renameAttempt (src dst : String) (err : Option ErrCode)
  | copy (src dst : String)
  | verifyOk (oldPath newPath : String)
  | verifyFail (oldPath newPath : String)
  | setTimes (path : String) (atimeMs mtimeMs : Int)
  | unlink (path : String)
  | savePath (pathType : PathType) (entityId : String) (path : String)
  | deleteIntent (id : Nat)
deriving DecidableEq, Repr

/-- How a `moveFile` execution ended: which `return` fired, or which
exception escaped. -/
inductive MoveOutcome where
  | noop
  | fileGone
  | verifyRecoveryFailed
  | missingAssetInfo
  | renameError (code : ErrCode)
  | verifyFallbackFailed
  | finished
  | threw (e : IOErr)
deriving DecidableEq, Repr

/-- Result of a `moveFile` execution. -/
structure MoveResult where
  world : World
  trace : List Event
  outcome : MoveOutcome
deriving DecidableEq, Repr

/-! ### Gateway and store primitives over `World` -/

/-- Lookup in the file map. -/
def fsLookup : List (String × FileData) → String → Option FileData
  | [], _ => none
  | (k, v) :: rest, p => if k = p then some v else fsLookup rest p

/-- Remove a path from the file map. -/
def fsRemove : List (String × FileData) → String → List (String × FileData)
  | [], _ => []
  | (k, v) :: rest, p =>
    if k = p then fsRemove rest p else (k, v) :: fsRemove rest p

/-- Write a path in the file map (create or overwrite). -/
def fsSet (fs : List (String × FileData)) (p : String) (v : FileData) :
    List (String × FileData) :=
  (p, v) :: fsRemove fs p

/-- Model of `stat(path)`: throws `ENOENT` for a missing file. -/
def statW (w : World) (p : String) : Except IOErr FileData :=
  match fsLookup w.fs p with
  | some d => .ok d
  | none => .error (.enoent p)

/-- Model of `checkFileExists(path)` as seen by the coordinator. -/
def checkFileExistsW (w : World) (p : String) : Bool :=
  (fsLookup w.fs p).isSome

/-- Model of `copyFile(src, dst)`: duplicates the source's bytes (hence size,
checksum and, per `fs.copyFile`, fresh-copy timestamps equal to the
source data as observed through the gateway). -/
def copyFileW (w : World) (src dst : String) : Except IOErr World :=
  match fsLookup w.fs src with
  | some d => .ok { w with fs := fsSet w.fs dst d }
  | none => .error (.enoent src)

/-- Model of `unlink(path)` (local "not found" is downgraded to a warning, so
the model is total). -/
def unlinkW (w : World) (p : String) : World :=
  { w with fs := fsRemove w.fs p }

/-- Model of `utimes(path, atime, mtime)`. -/
def utimesW (w : World) (p : String) (atimeV mtimeV : Int) : Except IOErr World :=
  match fsLookup w.fs p with
  | some d =>
    .ok { w with fs := fsSet w.fs p { d with atimeMs := atimeV, mtimeMs := mtimeV } }
  | none => .error (.enoent p)

/-- Model of `cryptoRepository.hashFile(path)`. -/
def hashFileW (w : World) (p : String) : Except IOErr (List Nat) :=
  match fsLookup w.fs p with
  | some d => .ok d.checksum
  | none => .error (.enoent p)

/-- Model of `rename(src, dst)` as the coordinator sees it: `ENOENT` when the
source is missing, otherwise the environment's injected fault or
success. -/
def renameW (w : World) (src dst : String) : Except ErrCode World :=
  match fsLookup w.fs src with
  | none => .error .enoent
  | some d =>
    match w.renameFault with
    | some c => .error c
    | none => .ok { w with fs := fsSet (fsRemove w.fs src) dst d }

/-- Model of `moveRepository.getByEntity(entityId, pathType)` over the rows. -/
def findMove : List MoveRow → String → PathType → Option MoveRow
  | [], _, _ => none
  | r :: rest, e, pt =>
    if r.entityId = e ∧ r.pathType = pt then some r else findMove rest e pt

/-- Model of `moveRepository.getByEntity` over the world. -/
def getByEntity (w : World) (e : String) (pt : PathType) : Option MoveRow :=
  findMove w.moves e pt

/-- Model of `moveRepository.delete(id)`. -/
def movesDelete : List MoveRow → Nat → List MoveRow
  | [], _ => []
  | r :: rest, i => if r.id = i then movesDelete rest i else r :: movesDelete rest i

/-- Remove a committed-path entry for a key. -/
def commitsRemove : List ((String × PathType) × String) → String × PathType →
    List ((String × PathType) × String)
  | [], _ => []
  | (k, v) :: rest, key =>
    if k = key then commitsRemove rest key else (k, v) :: commitsRemove rest key

/-- Model of `savePath`: persists the new path for `(entityId, pathType)` into
the owning entity (asset or person repository), modelled as an
upsert. -/
def commitsUpsert (l : List ((String × PathType) × String)) (key : String × PathType)
    (v : String) : List ((String × PathType) × String) :=
  (key, v) :: commitsRemove l key

/-! ### StorageCore: verification and the move protocol -/

/-- Model of `verifyNewPathContentsMatchesExpected(oldPath, newPath, assetInfo)`:
stats both paths (both stats are awaited unconditionally, so a missing
old path throws even when `assetInfo` supplies the expected size),
compares the new size against `assetInfo?.sizeInBytes` else the old
stat's size, and, when `assetInfo` is present and checksum verification
is enabled, compares the recomputed hash of the new path against the
expected checksum.  Returns the emitted events and the verdict. -/
def verifyNewPathContentsMatchesExpected (w : World) (oldPath newPath : String)
    (assetInfo : Option AssetInfo) : List Event × Except IOErr Bool :=
  match statW w oldPath with
  | .error e => ([.statFile oldPath], .error e)
  | .ok oldStat =>
    match statW w newPath with
    | .error e => ([.statFile oldPath, .statFile newPath], .error e)
    | .ok newStat =>
      let oldPathSize := match assetInfo with
        | some ai => ai.sizeInBytes
        | none => oldStat.size
      let newPathSize := newStat.size
      if newPathSize ≠ oldPathSize then
        ([.statFile oldPath, .statFile newPath, .verifyFail oldPath newPath], .ok false)
      else
        match assetInfo, w.hashVerificationEnabled with
        | some ai, true =>
          match hashFileW w newPath with
          | .error e =>
            ([.statFile oldPath, .statFile newPath, .hashOfFile newPath], .error e)
          | .ok newChecksum =>
            if newChecksum ≠ ai.checksum then
              ([.statFile oldPath, .statFile newPath, .hashOfFile newPath,
                .verifyFail oldPath newPath], .ok false)
            else
              ([.statFile oldPath, .statFile newPath, .hashOfFile newPath,
                .verifyOk oldPath newPath], .ok true)
        | _, _ =>
          ([.statFile oldPath, .statFile newPath, .verifyOk oldPath newPath], .ok true)

/-- The inline cloud-path check of `ensureFolders` (line-for-line:
does not strip empty input first). -/
def ensureFoldersIsCloudPath (input : String) : Bool :=
  (¬ strStartsWith input "/") ∧ 3 ≤ (splitSlash input).length ∧
    strContainsChar (splitSlash input).headI '.'

/-- Model of `ensureFolders(input)`: `mkdirSync(dirname(input))` for
non-cloud paths, a no-op for cloud paths. -/
def ensureFoldersTrace (input : String) : List Event :=
  if ensureFoldersIsCloudPath input then [] else [.mkdirs (posixDirname input)]

/-- Lines 291–292 of `moveFile`: `savePath` then
`moveRepository.delete(move.id)`. -/
def commitPhase (w : World) (tr : List Event) (req : MoveRequest) (move : MoveRow) :
    MoveResult :=
  let w1 := { w with commits := commitsUpsert w.commits (req.entityId, req.pathType) req.newPath }
  let w2 := { w1 with moves := movesDelete w1.moves move.id }
  ⟨w2, tr ++ [.savePath req.pathType req.entityId req.newPath, .deleteIntent move.id],
    .finished⟩

/-- Lines 255–293 of `moveFile`, entered with the resolved move row:
the missing-asset-info guard, the rename attempt, the `EXDEV`
copy–verify–utimes–unlink fallback, and the commit. -/
def afterIntent (w : World) (tr : List Event) (req : MoveRequest) (move : MoveRow) :
    MoveResult :=
  if req.pathType = PathType.original ∧ req.assetInfo = none then
    ⟨w, tr, .missingAssetInfo⟩
  else if move.oldPath = req.newPath then
    commitPhase w tr req move
  else
    match renameW w move.oldPath req.newPath with
    | .ok w2 =>
      commitPhase w2 (tr ++ [.renameAttempt move.oldPath req.newPath none]) req move
    | .error c =>
      let tr2 := tr ++ [.renameAttempt move.oldPath req.newPath (some c)]
      if c ≠ ErrCode.exdev then
        ⟨w, tr2, .renameError c⟩
      else
        match copyFileW w move.oldPath req.newPath with
        | .error e => ⟨w, tr2 ++ [.copy move.oldPath req.newPath], .threw e⟩
        | .ok w3 =>
          let tr3 := tr2 ++ [.copy move.oldPath req.newPath]
          let (tv, vres) :=
            verifyNewPathContentsMatchesExpected w3 move.oldPath req.newPath req.assetInfo
          match vres with
          | .error e => ⟨w3, tr3 ++ tv, .threw e⟩
          | .ok false =>
            ⟨unlinkW w3 req.newPath, tr3 ++ tv ++ [.unlink req.newPath],
              .verifyFallbackFailed⟩
          | .ok true =>
            match statW w3 move.oldPath with
            | .error e => ⟨w3, tr3 ++ tv ++ [.statFile move.oldPath], .threw e⟩
            | .ok oldStat =>
              match utimesW w3 req.newPath oldStat.atimeMs oldStat.mtimeMs with
              | .error e =>
                ⟨w3, tr3 ++ tv ++ [.statFile move.oldPath,
                  .setTimes req.newPath oldStat.atimeMs oldStat.mtimeMs], .threw e⟩
              | .ok w4 =>
                let w5 := unlinkW w4 move.oldPath
                commitPhase w5
                  (tr3 ++ tv ++ [.statFile move.oldPath,
                    .setTimes req.newPath oldStat.atimeMs oldStat.mtimeMs,
                    .unlink move.oldPath]) req move

/-- Model of `StorageCore.moveFile(request)`: the no-op guard, `ensureFolders`,
move-intent lookup with the crash-recovery branch (probe which of the
stored paths exist, verify when the survivor is at the new location,
update the row), or intent creation, then `afterIntent`. -/
def moveFile (w0 : World) (req : MoveRequest) : MoveResult :=
  match req.oldPath with
  | none => ⟨w0, [], .noop⟩
  | some oldP =>
    if oldP = "" then ⟨w0, [], .noop⟩
    else if oldP = req.newPath then ⟨w0, [], .noop⟩
    else
      let t0 := ensureFoldersTrace req.newPath
      match getByEntity w0 req.entityId req.pathType with
      | some m =>
        let oldPathExists := checkFileExistsW w0 m.oldPath
        let newPathExists := checkFileExistsW w0 m.newPath
        let t1 := t0 ++ [.getIntent req.entityId req.pathType,
          .checkExists m.oldPath oldPathExists, .checkExists m.newPath newPathExists]
        match (if oldPathExists then some m.oldPath
               else if newPathExists then some m.newPath else none) with
        | none => ⟨w0, t1, .fileGone⟩
        | some actualPath =>
          let fileAtNewLocation := actualPath = m.newPath
          let verdict : List Event × Except IOErr Bool :=
            if fileAtNewLocation then
              verifyNewPathContentsMatchesExpected w0 m.oldPath m.newPath req.assetInfo
            else ([], .ok true)
          match verdict with
          | (tv, .error e) => ⟨w0, t1 ++ tv, .threw e⟩
          | (tv, .ok false) => ⟨w0, t1 ++ tv, .verifyRecoveryFailed⟩
          | (tv, .ok true) =>
            let w1 := { w0 with moves := w0.moves.map fun r =>
              if r.id = m.id then { r with oldPath := actualPath, newPath := req.newPath }
              else r }
            let move := { m with oldPath := actualPath, newPath := req.newPath }
            afterIntent w1
              (t1 ++ tv ++ [.updateIntent m.id actualPath req.newPath]) req move
      | none =>
        let row : MoveRow := ⟨w0.nextId, req.entityId, req.pathType, oldP, req.newPath⟩
        let w1 := { w0 with moves := w0.moves ++ [row], nextId := w0.nextId + 1 }
        afterIntent w1
          (t0 ++ [.getIntent req.entityId req.pathType,
            .createIntent req.entityId req.pathType oldP req.newPath]) req row

/-! ## Scan predicate for the delete-after-verify invariant -/

/-- State of the delete-only-after-verified-copy scan: which sources
have been copied onto the request's new path, which of those copies
have been verified, and whether every source deletion so far was
guarded. -/
structure ScanSt where
  copied : List String
  verified : List String
  ok : Bool
deriving DecidableEq, Repr

/-- One step of the scan over a trace: `copy s newP` records `s` as
copied, `verifyOk s newP` after such a copy records `s` as verified,
and `unlink p` of anything other than the new path itself is admissible
only for a verified copied source. -/
def scanStep (newP : String) (st : ScanSt) (e : Event) : ScanSt :=
  match e with
  | .copy s dst => if dst = newP then { st with copied := s :: st.copied } else st
  | .verifyOk o n =>
    if n = newP ∧ o ∈ st.copied then { st with verified := o :: st.verified } else st
  | .unlink p => if p = newP ∨ p ∈ st.verified then st else { st with ok := false }
  | _ => st

/-- Run the scan over a whole trace. -/
def scanTrace (newP : String) (tr : List Event) : ScanSt :=
  tr.foldl (scanStep newP) ⟨[], [], true⟩

/-- The expected size `verifyNewPathContentsMatchesExpected` compares
against: the caller-supplied `sizeInBytes` when asset info is given,
else the source file's own size. -/
def expectedSizeOf (w : World) (o : String) (i : Option AssetInfo) : Nat :=
  match i with
  | some ai => ai.sizeInBytes
  | none =>
    match statW w o with
    | .ok d => d.size
    | .error _ => 0

/-! ## Theorems -/

/-- C8: parsing a path into host/bucket/key fails with an error whenever
splitting on `/` yields fewer than 3 segments; with at least 3 segments it
returns the first segment as host, the second as bucket, and the remaining
segments re-joined with `/` as the key. -/
theorem parseCloudPath_spec (fp : String) :
    ((splitSlash fp).length < 3 → ∃ msg, parseCloudPath fp = .error msg) ∧
    (3 ≤ (splitSlash fp).length →
      parseCloudPath fp = .ok ⟨(splitSlash fp).headI, ((splitSlash fp).drop 1).headI,
        joinSlash ((splitSlash fp).drop 2)⟩) := by
  constructor
  · intro h
    refine ⟨"Invalid cloud storage path format: " ++ fp, ?_⟩
    unfold parseCloudPath
    simp [h]
  · intro h
    unfold parseCloudPath
    simp [Nat.not_lt.mpr h]

/-- C6 (amended): a path is classified Remote iff it is nonempty, does not
start with `/`, splits on `/` into at least 3 segments whose first segment
contains a dot, and that first segment does not denote a non-S3 provider
(i.e. it ends with `.amazonaws.com`, or else it neither ends with
`.blob.core.windows.net` nor equals `storage.googleapis.com`); every other
string is classified Local. -/
theorem isRemote_iff (p : String) :
    isRemote p = true ↔
      (p ≠ "" ∧ strStartsWith p "/" = false ∧
        3 ≤ (splitSlash p).length ∧
        strContainsChar (splitSlash p).headI '.' = true ∧
        (strEndsWith (splitSlash p).headI ".amazonaws.com" = true ∨
          (strEndsWith (splitSlash p).headI ".blob.core.windows.net" = false ∧
            (splitSlash p).headI ≠ "storage.googleapis.com"))) := by
  unfold isRemote isCloudPath parseCloudPath detectCloudProvider
  by_cases h1 : p = ""
  · simp [h1]
  by_cases h2 : strStartsWith p "/"
  · simp [h1, h2]
  by_cases h3 : 3 ≤ (splitSlash p).length
  · have hlt : ¬ (splitSlash p).length < 3 := Nat.not_lt.mpr h3
    by_cases h4 : strContainsChar (splitSlash p).headI '.'
    · simp only [h1, h2, h3, h4, hlt, if_false, if_true, and_true, true_and, ne_eq,
        not_false_eq_true, ite_false, ite_true, Bool.false_eq_true, decide_True]
      by_cases h5 : strEndsWith (splitSlash p).headI ".amazonaws.com"
      · simp [h5]
      · by_cases h6 : strEndsWith (splitSlash p).headI ".blob.core.windows.net"
        · simp [h5, h6]
        · by_cases h7 : (splitSlash p).headI = "storage.googleapis.com"
          · simp [h5, h6, h7]
            decide
          · simp [h5, h6, h7]
    · simp [h1, h2, h3, h4]
  · simp [h1, h2, h3]

/-- C6 counterexample: `storage.googleapis.com/bucket/key.jpg` does not
start with `/`, has three slash-segments, and its first segment contains a
dot, so the claim as stated classifies it Remote; yet `isRemote` returns
`false` (the host maps to the GCS provider, not S3). -/
theorem isRemote_gcs_counterexample :
    strStartsWith "storage.googleapis.com/bucket/key.jpg" "/" = false ∧
    3 ≤ (splitSlash "storage.googleapis.com/bucket/key.jpg").length ∧
    strContainsChar (splitSlash "storage.googleapis.com/bucket/key.jpg").headI '.' = true ∧
    isRemote "storage.googleapis.com/bucket/key.jpg" = false := by decide

/-- C9 counterexample: two distinct concurrent invocations of the bridge
(different call identities) that observe the same `Date.now()` millisecond
and the same logical path receive the *same* temporary file name, refuting
the claimed collision-resistant uniqueness. -/
theorem tempName_counterexample :
    ¬ (∀ i1 i2 : TempInvocation, i1.callId ≠ i2.callId →
        tempNameOf "/tmp" i1 ≠ tempNameOf "/tmp" i2) := by
  intro h
  exact h ⟨0, 1727000000000, "s3.amazonaws.com/bucket/a.jpg"⟩
          ⟨1, 1727000000000, "s3.amazonaws.com/bucket/a.jpg"⟩ (by decide) rfl

/-- C9 (amended): the temporary name is a pure function of the temp
directory, the observed millisecond clock, and the path's basename — any
two invocations agreeing on those receive the identical name (and hence
interfere); distinct names are only guaranteed when the timestamp or the
basename differ. -/
theorem tempName_amended (tmpdir : String) (i1 i2 : TempInvocation)
    (hnow : i1.now = i2.now)
    (hbase : posixBasename i1.filepath = posixBasename i2.filepath) :
    tempNameOf tmpdir i1 = tempNameOf tmpdir i2 := by
  unfold tempNameOf writeFileTempName
  rw [hnow, hbase]

theorem tempName_amended_witness :
    tempNameOf "/tmp" ⟨0, 99, "a.com/b/x.jpg"⟩ = tempNameOf "/tmp" ⟨1, 99, "q.com/c/x.jpg"⟩ :=
  tempName_amended "/tmp" ⟨0, 99, "a.com/b/x.jpg"⟩ ⟨1, 99, "q.com/c/x.jpg"⟩ rfl (by decide)

/-- C10: `checkFileExists` is total and never raises: it returns `true`
exactly when the path is local and accessible, or remote with a
well-formed path, resolvable provider credentials, a working network, and
an existing object; every failure mode — unreadable local file, malformed
remote path, unsupported endpoint, missing credentials, network fault,
missing object — yields `false` rather than an error. -/
theorem checkFileExists_total (w : RepoWorld) (p : String) :
    checkFileExists w p = true ↔
      ((isRemote p = false ∧ p ∈ w.localFiles) ∨
       (isRemote p = true ∧ ∃ pc, parseCloudPath p = .ok pc ∧
         (∃ cr, getS3Client w.env pc.host = .ok cr) ∧
         w.headNetOk = true ∧ (pc.host, pc.bucket, pc.key) ∈ w.s3Objects)) := by
  unfold checkFileExists headObjectSend
  by_cases hr : isRemote p
  · cases hpc : parseCloudPath p with
    | error e => simp [hr, hpc]
    | ok pc =>
      cases hcr : getS3Client w.env pc.host with
      | error e => simp [hr, hpc, hcr]
      | ok cr =>
        by_cases hnet : w.headNetOk
        · by_cases hmem : (pc.host, pc.bucket, pc.key) ∈ w.s3Objects
          · simp [hr, hpc, hcr, hnet, hmem]
          · simp [hr, hpc, hcr, hnet, hmem]
        · simp [hr, hpc, hcr, hnet]
  · simp [hr]

/-- C5: `rename(src, dst)` dispatch: when both paths are Local it
delegates to the local filesystem rename; when both are Remote in the same
bucket it is emulated as a server-side Copy followed by Delete of the
source key, with the delete sent only after the copy succeeds; mixed
backends fail with an error; and two different Remote buckets are rejected
with no network operation issued. -/
theorem rename_dispatch :
    (∀ (w : RepoWorld) (src dst : String),
      isRemote src = false → isRemote dst = false →
      renameRepo w src dst = ([], .ok (.fsRename src dst))) ∧
    (∀ (w : RepoWorld) (src dst : String) (pcS pcT : ParsedCloudPath),
      isRemote src = true → isRemote dst = true →
      parseCloudPath src = .ok pcS → parseCloudPath dst = .ok pcT →
      pcS.bucket = pcT.bucket →
      (∃ c1, getS3Client w.env pcT.host = .ok c1) →
      (∃ c2, getS3Client w.env pcS.host = .ok c2) →
      w.copyNetOk = true → w.deleteNetOk = true →
      renameRepo w src dst =
        ([.copyObject pcT.host pcT.bucket (pcS.bucket ++ "/" ++ pcS.key) pcT.key,
          .deleteObject pcS.host pcS.bucket pcS.key], .ok .s3Renamed)) ∧
    (∀ (w : RepoWorld) (src dst : String) (pcS pcT : ParsedCloudPath),
      isRemote src = true → isRemote dst = true →
      parseCloudPath src = .ok pcS → parseCloudPath dst = .ok pcT →
      pcS.bucket = pcT.bucket →
      (∃ c1, getS3Client w.env pcT.host = .ok c1) →
      w.copyNetOk = false →
      ∃ msg, renameRepo w src dst =
        ([.copyObject pcT.host pcT.bucket (pcS.bucket ++ "/" ++ pcS.key) pcT.key],
          .error msg)) ∧
    (∀ (w : RepoWorld) (src dst : String),
      isRemote src ≠ isRemote dst →
      renameRepo w src dst =
        ([], .error ("Cannot rename between different storage backends: "
          ++ src ++ " -> " ++ dst))) ∧
    (∀ (w : RepoWorld) (src dst : String) (pcS pcT : ParsedCloudPath),
      isRemote src = true → isRemote dst = true →
      parseCloudPath src = .ok pcS → parseCloudPath dst = .ok pcT →
      pcS.bucket ≠ pcT.bucket →
      renameRepo w src dst =
        ([], .error ("Cannot rename between different remote storage buckets: "
          ++ pcS.bucket ++ " -> " ++ pcT.bucket))) := by
  refine ⟨?_, ?_, ?_, ?_, ?_⟩
  · intro w src dst hs hd
    unfold renameRepo
    simp [hs, hd]
  · rintro w src dst pcS pcT hs hd hps hpt hbeq ⟨c1, hc1⟩ ⟨c2, hc2⟩ hcopy hdel
    unfold renameRepo unlinkRemote
    simp [hs, hd, hps, hpt, hbeq, hc1, hc2, hcopy, hdel, Except.map]
  · rintro w src dst pcS pcT hs hd hps hpt hbeq ⟨c1, hc1⟩ hcopy
    refine ⟨"network error", ?_⟩
    unfold renameRepo
    simp [hs, hd, hps, hpt, hbeq, hc1, hcopy]
  · intro w src dst hne
    unfold renameRepo
    cases hs : isRemote src <;> cases hd : isRemote dst <;>
      simp_all
  · rintro w src dst pcS pcT hs hd hps hpt hbne
    unfold renameRepo
    simp [hs, hd, hps, hpt, hbne]

theorem fsLookup_fsRemove (fs : List (String × FileData)) (p q : String) :
    fsLookup (fsRemove fs p) q = if q = p then none else fsLookup fs q := by
  induction fs with
  | nil => simp [fsRemove, fsLookup]
  | cons e rest ih =>
    obtain ⟨k, v⟩ := e
    simp only [fsRemove, fsLookup]
    by_cases hk : k = p <;> by_cases hq : q = p <;> by_cases hkq : k = q <;>
      simp_all [fsLookup]

theorem fsLookup_fsSet (fs : List (String × FileData)) (p : String) (v : FileData)
    (q : String) :
    fsLookup (fsSet fs p v) q = if q = p then some v else fsLookup fs q := by
  by_cases hq : q = p
  · simp [fsSet, fsLookup, hq]
  · have hpq : ¬ p = q := fun h => hq h.symm
    simp [fsSet, fsLookup, hq, hpq, fsLookup_fsRemove]

theorem findMove_append (l1 l2 : List MoveRow) (e : String) (pt : PathType)
    (h : findMove l1 e pt = none) :
    findMove (l1 ++ l2) e pt = findMove l2 e pt := by
  induction l1 with
  | nil => simp
  | cons r rest ih =>
    by_cases hr : r.entityId = e ∧ r.pathType = pt
    · simp [findMove, hr] at h
    · simp only [findMove, hr, if_false, List.cons_append, ite_false] at h ⊢
      simp [hr]
      exact ih h

theorem movesDelete_eq_self (l : List MoveRow) (i : Nat) (h : ∀ r ∈ l, r.id ≠ i) :
    movesDelete l i = l := by
  induction l with
  | nil => rfl
  | cons r rest ih =>
    have hr : r.id ≠ i := h r (List.mem_cons_self r rest)
    simp [movesDelete, hr]
    exact ih fun x hx => h x (List.mem_cons_of_mem r hx)

theorem movesDelete_append (l1 l2 : List MoveRow) (i : Nat) :
    movesDelete (l1 ++ l2) i = movesDelete l1 i ++ movesDelete l2 i := by
  induction l1 with
  | nil => rfl
  | cons r rest ih =>
    by_cases hr : r.id = i <;> simp [movesDelete, hr, ih]

theorem moveFile_fallback_mismatch_eq1 (w0 : World) (req : MoveRequest) (op : String)
    (d : FileData) (ai : AssetInfo)
    (hold : req.oldPath = some op) (hne : op ≠ "") (hnp : op ≠ req.newPath)
    (hget : getByEntity w0 req.entityId req.pathType = none)
    (hsrc : fsLookup w0.fs op = some d)
    (hfault : w0.renameFault = some ErrCode.exdev)
    (hai : req.assetInfo = some ai)
    (hz : d.size ≠ ai.sizeInBytes) :
    moveFile w0 req =
      ⟨{ w0 with
          fs := fsRemove (fsSet w0.fs req.newPath d) req.newPath,
          moves := w0.moves ++ [⟨w0.nextId, req.entityId, req.pathType, op, req.newPath⟩],
          nextId := w0.nextId + 1 },
        ensureFoldersTrace req.newPath ++
          [.getIntent req.entityId req.pathType,
           .createIntent req.entityId req.pathType op req.newPath,
           .renameAttempt op req.newPath (some ErrCode.exdev),
           .copy op req.newPath,
           .statFile op, .statFile req.newPath,
           .verifyFail op req.newPath,
           .unlink req.newPath],
        MoveOutcome.verifyFallbackFailed⟩ := by
  simp only [moveFile, hold, hne, hnp, hget, afterIntent, hai, renameW, copyFileW,
    verifyNewPathContentsMatchesExpected, statW, hashFileW, unlinkW, hsrc, hfault,
    fsLookup_fsSet, fsLookup_fsRemove, hz,
    List.append_assoc, List.cons_append, List.nil_append,
    if_true, if_false, ite_true, ite_false, ne_eq, not_false_eq_true, not_true_eq_false,
    and_false, false_and, and_true, true_and, reduceCtorEq, Option.some.injEq]

theorem moveFile_fallback_mismatch_eq2 (w0 : World) (req : MoveRequest) (op : String)
    (d : FileData) (ai : AssetInfo)
    (hold : req.oldPath = some op) (hne : op ≠ "") (hnp : op ≠ req.newPath)
    (hget : getByEntity w0 req.entityId req.pathType = none)
    (hsrc : fsLookup w0.fs op = some d)
    (hfault : w0.renameFault = some ErrCode.exdev)
    (hai : req.assetInfo = some ai)
    (hhv : w0.hashVerificationEnabled = true)
    (hszeq : d.size = ai.sizeInBytes)
    (hck : d.checksum ≠ ai.checksum) :
    moveFile w0 req =
      ⟨{ w0 with
          fs := fsRemove (fsSet w0.fs req.newPath d) req.newPath,
          moves := w0.moves ++ [⟨w0.nextId, req.entityId, req.pathType, op, req.newPath⟩],
          nextId := w0.nextId + 1 },
        ensureFoldersTrace req.newPath ++
          [.getIntent req.entityId req.pathType,
           .createIntent req.entityId req.pathType op req.newPath,
           .renameAttempt op req.newPath (some ErrCode.exdev),
           .copy op req.newPath,
           .statFile op, .statFile req.newPath,
           .hashOfFile req.newPath,
           .verifyFail op req.newPath,
           .unlink req.newPath],
        MoveOutcome.verifyFallbackFailed⟩ := by
  simp only [moveFile, hold, hne, hnp, hget, afterIntent, hai, renameW, copyFileW,
    verifyNewPathContentsMatchesExpected, statW, hashFileW, unlinkW, hsrc, hfault,
    fsLookup_fsSet, fsLookup_fsRemove, hhv, hszeq, hck,
    List.append_assoc, List.cons_append, List.nil_append,
    if_true, if_false, ite_true, ite_false, ne_eq, not_false_eq_true, not_true_eq_false,
    and_false, false_and, and_true, true_and, reduceCtorEq, Option.some.injEq]

theorem scan_ok_preserved (n : String) (e : Event) (st : ScanSt)
    (h : ∀ p, e ≠ Event.unlink p) (hok : st.ok = true) :
    (scanStep n st e).ok = true := by
  cases e <;> simp only [scanStep] <;> first
    | simpa using hok
    | (split <;> simpa using hok)
    | exact absurd rfl (h _)

theorem scan_foldl_ok_of_no_unlink (n : String) (tr : List Event)
    (h : ∀ p, Event.unlink p ∉ tr) :
    ∀ st : ScanSt, st.ok = true → (tr.foldl (scanStep n) st).ok = true := by
  induction tr with
  | nil => intro st hok; simpa using hok
  | cons e rest ih =>
    intro st hok
    simp only [List.foldl_cons]
    refine ih (fun p hp => h p (List.mem_cons_of_mem e hp)) _ ?_
    refine scan_ok_preserved n e st (fun p he => ?_) hok
    exact h p (he ▸ List.mem_cons_self e rest)

theorem ensureFoldersTrace_no_unlink (input p : String) :
    Event.unlink p ∉ ensureFoldersTrace input := by
  unfold ensureFoldersTrace
  split <;> simp

theorem verify_trace_no_unlink (w : World) (o n : String) (i : Option AssetInfo)
    (p : String) :
    Event.unlink p ∉ (verifyNewPathContentsMatchesExpected w o n i).1 := by
  unfold verifyNewPathContentsMatchesExpected
  cases h1 : statW w o with
  | error e => simp
  | ok oldStat =>
    cases h2 : statW w n with
    | error e => simp [h1, h2]
    | ok newStat =>
      simp only [h1, h2]
      split
      · simp
      · split
        · cases h3 : hashFileW w n with
          | error e => simp [h3]
          | ok ck => simp only [h3]; split <;> simp
        · simp

theorem verify_ok_trace_shape (w : World) (o n : String) (i : Option AssetInfo)
    (tv : List Event)
    (hv : verifyNewPathContentsMatchesExpected w o n i = (tv, .ok true)) :
    tv = [.statFile o, .statFile n, .verifyOk o n] ∨
    tv = [.statFile o, .statFile n, .hashOfFile n, .verifyOk o n] := by
  unfold verifyNewPathContentsMatchesExpected at hv
  cases h1 : statW w o with
  | error e => rw [h1] at hv; exact absurd (congrArg Prod.snd hv) (by simp)
  | ok oldStat =>
  rw [h1] at hv
  cases h2 : statW w n with
  | error e => rw [h2] at hv; exact absurd (congrArg Prod.snd hv) (by simp)
  | ok newStat =>
  rw [h2] at hv
  simp only [] at hv
  split at hv
  · exact absurd (congrArg Prod.snd hv) (by simp)
  · rcases i with _ | ai
    · exact Or.inl (congrArg Prod.fst hv).symm
    · cases hh : w.hashVerificationEnabled
      · rw [hh] at hv
        simp only [] at hv
        exact Or.inl (congrArg Prod.fst hv).symm
      · rw [hh] at hv
        simp only [] at hv
        cases h3 : hashFileW w n with
        | error e => rw [h3] at hv; exact absurd (congrArg Prod.snd hv) (by simp)
        | ok ck =>
          rw [h3] at hv
          simp only [] at hv
          split at hv
          · exact absurd (congrArg Prod.snd hv) (by simp)
          · exact Or.inr (congrArg Prod.fst hv).symm

theorem verify_ok_true_char (w : World) (o n : String) (i : Option AssetInfo)
    (tv : List Event)
    (hv : verifyNewPathContentsMatchesExpected w o n i = (tv, .ok true)) :
    ∃ dN, statW w n = .ok dN ∧ dN.size = expectedSizeOf w o i ∧
      (w.hashVerificationEnabled = true → ∀ ai, i = some ai →
        dN.checksum = ai.checksum) := by
  unfold verifyNewPathContentsMatchesExpected at hv
  cases h1 : statW w o with
  | error e => rw [h1] at hv; exact absurd (congrArg Prod.snd hv) (by simp)
  | ok oldStat =>
  rw [h1] at hv
  cases h2 : statW w n with
  | error e => rw [h2] at hv; exact absurd (congrArg Prod.snd hv) (by simp)
  | ok newStat =>
  rw [h2] at hv
  simp only [] at hv
  refine ⟨newStat, rfl, ?_, ?_⟩
  · split at hv
    · exact absurd (congrArg Prod.snd hv) (by simp)
    · rename_i hsz
      rw [Ne, not_not] at hsz
      rcases i with _ | ai
      · simpa [expectedSizeOf, h1] using hsz
      · simpa [expectedSizeOf] using hsz
  · intro hh ai hi
    subst hi
    rw [hh] at hv
    split at hv
    · exact absurd (congrArg Prod.snd hv) (by simp)
    · simp only [] at hv
      cases h3 : hashFileW w n with
      | error e => rw [h3] at hv; exact absurd (congrArg Prod.snd hv) (by simp)
      | ok ck =>
        rw [h3] at hv
        simp only [] at hv
        split at hv
        · exact absurd (congrArg Prod.snd hv) (by simp)
        · rename_i hck
          rw [Ne, not_not] at hck
          have : ck = newStat.checksum := by
            unfold hashFileW at h3
            unfold statW at h2
            cases hl : fsLookup w.fs n <;> rw [hl] at h2 h3
            · cases h2
            · cases h2; cases h3; rfl
          rw [← this, hck]

theorem no_unlink_append {tr1 tr2 : List Event}
    (h1 : ∀ p, Event.unlink p ∉ tr1) (h2 : ∀ p, Event.unlink p ∉ tr2) :
    ∀ p, Event.unlink p ∉ tr1 ++ tr2 := by
  intro p hp
  rcases List.mem_append.mp hp with h | h
  · exact h1 p h
  · exact h2 p h

theorem scanStep_unlink_self (n : String) (st : ScanSt) :
    scanStep n st (.unlink n) = st := by
  simp [scanStep]

theorem scan_afterIntent (w : World) (tr : List Event) (req : MoveRequest)
    (move : MoveRow) (htr : ∀ p, Event.unlink p ∉ tr) :
    (scanTrace req.newPath (afterIntent w tr req move).trace).ok = true := by
  unfold afterIntent
  split
  · exact scan_foldl_ok_of_no_unlink _ _ htr _ rfl
  · split
    · unfold commitPhase
      exact scan_foldl_ok_of_no_unlink _ _ (fun p => by simp [htr p]) _ rfl
    · cases hr : renameW w move.oldPath req.newPath with
      | ok w2 =>
        unfold commitPhase
        simp only []
        exact scan_foldl_ok_of_no_unlink _ _ (fun p => by simp [htr p]) _ rfl
      | error c =>
        simp only []
        split
        · exact scan_foldl_ok_of_no_unlink _ _ (fun p => by simp [htr p]) _ rfl
        · cases hc : copyFileW w move.oldPath req.newPath with
          | error e =>
            exact scan_foldl_ok_of_no_unlink _ _ (fun p => by simp [htr p]) _ rfl
          | ok w3 =>
            simp only []
            rcases hveq : verifyNewPathContentsMatchesExpected w3 move.oldPath
              req.newPath req.assetInfo with ⟨tv, vres⟩
            simp only []
            have htv_nu : ∀ p, Event.unlink p ∉ tv := by
              intro p
              have hx := verify_trace_no_unlink w3 move.oldPath req.newPath
                req.assetInfo p
              rw [hveq] at hx
              exact hx
            cases vres with
            | error e =>
              simp only []
              exact scan_foldl_ok_of_no_unlink _ _
                (fun p => by simp [htr p, htv_nu p]) _ rfl
            | ok b =>
              cases b with
              | false =>
                simp only []
                unfold scanTrace
                rw [List.foldl_append]
                simp only [List.foldl_cons, List.foldl_nil, scanStep_unlink_self]
                exact scan_foldl_ok_of_no_unlink _ _
                  (fun p => by simp [htr p, htv_nu p]) _ rfl
              | true =>
                simp only []
                split
                · exact scan_foldl_ok_of_no_unlink _ _
                    (fun p => by simp [htr p, htv_nu p]) _ rfl
                · split
                  · exact scan_foldl_ok_of_no_unlink _ _
                      (fun p => by simp [htr p, htv_nu p]) _ rfl
                  · unfold commitPhase
                    simp only []
                    have hst0 : (List.foldl (scanStep req.newPath)
                        ⟨[], [], true⟩ tr).ok = true :=
                      scan_foldl_ok_of_no_unlink _ _ htr _ rfl
                    rcases verify_ok_trace_shape _ _ _ _ _ hveq with htv | htv <;>
                      subst htv <;>
                      simp [scanTrace, List.foldl_append, scanStep, hst0,
                        List.mem_cons]

theorem verdict_fst_no_unlink (c : Prop) [Decidable c] (w : World) (o n : String)
    (i : Option AssetInfo) (p : String) :
    Event.unlink p ∉ (if c then verifyNewPathContentsMatchesExpected w o n i
      else ([], Except.ok true)).1 := by
  split
  · exact verify_trace_no_unlink w o n i p
  · simp

theorem moveFile_scan (w0 : World) (req : MoveRequest) :
    (scanTrace req.newPath (moveFile w0 req).trace).ok = true := by
  have ht0 : ∀ p, Event.unlink p ∉ ensureFoldersTrace req.newPath :=
    fun p => ensureFoldersTrace_no_unlink _ p
  unfold moveFile
  split
  · rfl
  · split
    · rfl
    · split
      · rfl
      · split
        · -- recovery branch, intent found
          rename_i m hm
          simp only []
          split
          · -- actualPath = none : fileGone
            exact scan_foldl_ok_of_no_unlink _ _ (fun p => by simp [ht0 p]) _ rfl
          · -- actualPath = some
            rename_i actualPath hap
            split
            · -- verdict (tv, error e)
              rename_i tv e heq
              refine scan_foldl_ok_of_no_unlink _ _ (fun p => ?_) _ rfl
              have hx := verdict_fst_no_unlink (actualPath = m.newPath) w0
                m.oldPath m.newPath req.assetInfo p
              rw [heq] at hx
              simp only [] at hx
              simp [ht0 p, hx]
            · -- verdict (tv, ok false)
              rename_i tv heq
              refine scan_foldl_ok_of_no_unlink _ _ (fun p => ?_) _ rfl
              have hx := verdict_fst_no_unlink (actualPath = m.newPath) w0
                m.oldPath m.newPath req.assetInfo p
              rw [heq] at hx
              simp only [] at hx
              simp [ht0 p, hx]
            · -- verdict (tv, ok true)
              rename_i tv heq
              apply scan_afterIntent
              intro p
              have hx := verdict_fst_no_unlink (actualPath = m.newPath) w0
                m.oldPath m.newPath req.assetInfo p
              rw [heq] at hx
              simp only [] at hx
              simp [ht0 p, hx]
        · -- create branch
          apply scan_afterIntent
          intro p
          simp [ht0 p]

theorem moveFile_fallback_ok_eq_none (w0 : World) (req : MoveRequest) (op : String)
    (d : FileData)
    (hold : req.oldPath = some op) (hne : op ≠ "") (hnp : op ≠ req.newPath)
    (hget : getByEntity w0 req.entityId req.pathType = none)
    (hsrc : fsLookup w0.fs op = some d)
    (hfault : w0.renameFault = some ErrCode.exdev)
    (hai : req.assetInfo = none) (hpt : req.pathType ≠ PathType.original) :
    moveFile w0 req =
      ⟨{ w0 with
          fs := fsRemove (fsSet (fsSet w0.fs req.newPath d) req.newPath d) op,
          moves := movesDelete
            (w0.moves ++ [⟨w0.nextId, req.entityId, req.pathType, op, req.newPath⟩])
            w0.nextId,
          nextId := w0.nextId + 1,
          commits := commitsUpsert w0.commits (req.entityId, req.pathType) req.newPath },
        ensureFoldersTrace req.newPath ++
          [.getIntent req.entityId req.pathType,
           .createIntent req.entityId req.pathType op req.newPath,
           .renameAttempt op req.newPath (some ErrCode.exdev),
           .copy op req.newPath,
           .statFile op, .statFile req.newPath,
           .verifyOk op req.newPath,
           .statFile op,
           .setTimes req.newPath d.atimeMs d.mtimeMs,
           .unlink op,
           .savePath req.pathType req.entityId req.newPath,
           .deleteIntent w0.nextId],
        MoveOutcome.finished⟩ := by
  simp only [moveFile, hold, hne, hnp, hget, afterIntent, hai, hpt, renameW, copyFileW,
    verifyNewPathContentsMatchesExpected, statW, hashFileW, utimesW, unlinkW,
    commitPhase, hsrc, hfault, fsLookup_fsSet, fsLookup_fsRemove,
    List.append_assoc, List.cons_append, List.nil_append,
    if_true, if_false, ite_true, ite_false, ne_eq, not_false_eq_true,
    not_true_eq_false, and_false, false_and, and_true, true_and, reduceCtorEq,
    Option.some.injEq]

theorem moveFile_fallback_ok_eq_hash (w0 : World) (req : MoveRequest) (op : String)
    (d : FileData) (ai : AssetInfo)
    (hold : req.oldPath = some op) (hne : op ≠ "") (hnp : op ≠ req.newPath)
    (hget : getByEntity w0 req.entityId req.pathType = none)
    (hsrc : fsLookup w0.fs op = some d)
    (hfault : w0.renameFault = some ErrCode.exdev)
    (hai : req.assetInfo = some ai)
    (hhv : w0.hashVerificationEnabled = true)
    (hsz : d.size = ai.sizeInBytes) (hck : d.checksum = ai.checksum) :
    moveFile w0 req =
      ⟨{ w0 with
          fs := fsRemove (fsSet (fsSet w0.fs req.newPath d) req.newPath d) op,
          moves := movesDelete
            (w0.moves ++ [⟨w0.nextId, req.entityId, req.pathType, op, req.newPath⟩])
            w0.nextId,
          nextId := w0.nextId + 1,
          commits := commitsUpsert w0.commits (req.entityId, req.pathType) req.newPath },
        ensureFoldersTrace req.newPath ++
          [.getIntent req.entityId req.pathType,
           .createIntent req.entityId req.pathType op req.newPath,
           .renameAttempt op req.newPath (some ErrCode.exdev),
           .copy op req.newPath,
           .statFile op, .statFile req.newPath,
           .hashOfFile req.newPath,
           .verifyOk op req.newPath,
           .statFile op,
           .setTimes req.newPath d.atimeMs d.mtimeMs,
           .unlink op,
           .savePath req.pathType req.entityId req.newPath,
           .deleteIntent w0.nextId],
        MoveOutcome.finished⟩ := by
  have hsz' : (d.size ≠ ai.sizeInBytes) = False := by simp [hsz]
  have hck' : (d.checksum ≠ ai.checksum) = False := by simp [hck]
  simp only [moveFile, hold, hne, hnp, hget, afterIntent, hai, renameW, copyFileW,
    verifyNewPathContentsMatchesExpected, statW, hashFileW, utimesW, unlinkW,
    commitPhase, hsrc, hfault, hhv, hsz', hck', fsLookup_fsSet, fsLookup_fsRemove,
    List.append_assoc, List.cons_append, List.nil_append,
    if_true, if_false, ite_true, ite_false, ne_eq, not_false_eq_true,
    not_true_eq_false, and_false, false_and, and_true, true_and, reduceCtorEq,
    Option.some.injEq]

theorem moveFile_fallback_ok_eq_nohash (w0 : World) (req : MoveRequest) (op : String)
    (d : FileData) (ai : AssetInfo)
    (hold : req.oldPath = some op) (hne : op ≠ "") (hnp : op ≠ req.newPath)
    (hget : getByEntity w0 req.entityId req.pathType = none)
    (hsrc : fsLookup w0.fs op = some d)
    (hfault : w0.renameFault = some ErrCode.exdev)
    (hai : req.assetInfo = some ai)
    (hhv : w0.hashVerificationEnabled = false)
    (hsz : d.size = ai.sizeInBytes) :
    moveFile w0 req =
      ⟨{ w0 with
          fs := fsRemove (fsSet (fsSet w0.fs req.newPath d) req.newPath d) op,
          moves := movesDelete
            (w0.moves ++ [⟨w0.nextId, req.entityId, req.pathType, op, req.newPath⟩])
            w0.nextId,
          nextId := w0.nextId + 1,
          commits := commitsUpsert w0.commits (req.entityId, req.pathType) req.newPath },
        ensureFoldersTrace req.newPath ++
          [.getIntent req.entityId req.pathType,
           .createIntent req.entityId req.pathType op req.newPath,
           .renameAttempt op req.newPath (some ErrCode.exdev),
           .copy op req.newPath,
           .statFile op, .statFile req.newPath,
           .verifyOk op req.newPath,
           .statFile op,
           .setTimes req.newPath d.atimeMs d.mtimeMs,
           .unlink op,
           .savePath req.pathType req.entityId req.newPath,
           .deleteIntent w0.nextId],
        MoveOutcome.finished⟩ := by
  have hsz' : (d.size ≠ ai.sizeInBytes) = False := by simp [hsz]
  simp only [moveFile, hold, hne, hnp, hget, afterIntent, hai, renameW, copyFileW,
    verifyNewPathContentsMatchesExpected, statW, hashFileW, utimesW, unlinkW,
    commitPhase, hsrc, hfault, hhv, hsz', fsLookup_fsSet, fsLookup_fsRemove,
    List.append_assoc, List.cons_append, List.nil_append,
    if_true, if_false, ite_true, ite_false, ne_eq, not_false_eq_true,
    not_true_eq_false, and_false, false_and, and_true, true_and, reduceCtorEq,
    Option.some.injEq, Bool.false_eq_true]

theorem moveFile_rename_ok_eq (w0 : World) (req : MoveRequest) (op : String)
    (d : FileData)
    (hold : req.oldPath = some op) (hne : op ≠ "") (hnp : op ≠ req.newPath)
    (hget : getByEntity w0 req.entityId req.pathType = none)
    (hsrc : fsLookup w0.fs op = some d)
    (hfault : w0.renameFault = none)
    (hguard : ¬(req.pathType = PathType.original ∧ req.assetInfo = none)) :
    moveFile w0 req =
      ⟨{ w0 with
          fs := fsSet (fsRemove w0.fs op) req.newPath d,
          moves := movesDelete
            (w0.moves ++ [⟨w0.nextId, req.entityId, req.pathType, op, req.newPath⟩])
            w0.nextId,
          nextId := w0.nextId + 1,
          commits := commitsUpsert w0.commits (req.entityId, req.pathType) req.newPath },
        ensureFoldersTrace req.newPath ++
          [.getIntent req.entityId req.pathType,
           .createIntent req.entityId req.pathType op req.newPath,
           .renameAttempt op req.newPath none,
           .savePath req.pathType req.entityId req.newPath,
           .deleteIntent w0.nextId],
        MoveOutcome.finished⟩ := by
  simp only [moveFile, hold, hne, hnp, hget, afterIntent, hguard, renameW,
    commitPhase, hsrc, hfault,
    List.append_assoc, List.cons_append, List.nil_append,
    if_true, if_false, ite_true, ite_false, ne_eq, not_false_eq_true,
    not_true_eq_false, and_false, false_and, and_true, true_and, reduceCtorEq,
    Option.some.injEq]

theorem moveFile_rename_err_eq (w0 : World) (req : MoveRequest) (op : String)
    (d : FileData) (c : ErrCode)
    (hold : req.oldPath = some op) (hne : op ≠ "") (hnp : op ≠ req.newPath)
    (hget : getByEntity w0 req.entityId req.pathType = none)
    (hsrc : fsLookup w0.fs op = some d)
    (hfault : w0.renameFault = some c) (hc : c ≠ ErrCode.exdev)
    (hguard : ¬(req.pathType = PathType.original ∧ req.assetInfo = none)) :
    moveFile w0 req =
      ⟨{ w0 with
          moves := w0.moves ++ [⟨w0.nextId, req.entityId, req.pathType, op, req.newPath⟩],
          nextId := w0.nextId + 1 },
        ensureFoldersTrace req.newPath ++
          [.getIntent req.entityId req.pathType,
           .createIntent req.entityId req.pathType op req.newPath,
           .renameAttempt op req.newPath (some c)],
        MoveOutcome.renameError c⟩ := by
  simp only [moveFile, hold, hne, hnp, hget, afterIntent, hguard, renameW,
    hsrc, hfault, hc,
    List.append_assoc, List.cons_append, List.nil_append,
    if_true, if_false, ite_true, ite_false, ne_eq, not_false_eq_true,
    not_true_eq_false, and_false, false_and, and_true, true_and, reduceCtorEq,
    Option.some.injEq]

theorem moveFile_rename_enoent_eq (w0 : World) (req : MoveRequest) (op : String)
    (hold : req.oldPath = some op) (hne : op ≠ "") (hnp : op ≠ req.newPath)
    (hget : getByEntity w0 req.entityId req.pathType = none)
    (hsrc : fsLookup w0.fs op = none)
    (hguard : ¬(req.pathType = PathType.original ∧ req.assetInfo = none)) :
    moveFile w0 req =
      ⟨{ w0 with
          moves := w0.moves ++ [⟨w0.nextId, req.entityId, req.pathType, op, req.newPath⟩],
          nextId := w0.nextId + 1 },
        ensureFoldersTrace req.newPath ++
          [.getIntent req.entityId req.pathType,
           .createIntent req.entityId req.pathType op req.newPath,
           .renameAttempt op req.newPath (some ErrCode.enoent)],
        MoveOutcome.renameError ErrCode.enoent⟩ := by
  simp only [moveFile, hold, hne, hnp, hget, afterIntent, hguard, renameW, hsrc,
    List.append_assoc, List.cons_append, List.nil_append,
    if_true, if_false, ite_true, ite_false, ne_eq, not_false_eq_true,
    not_true_eq_false, and_false, false_and, and_true, true_and, reduceCtorEq,
    Option.some.injEq]

/-- C2: in the copy-based fallback of `moveFile`, whenever the
destination's size differs from the expected size, or checksum
verification is enabled and its hash differs from the expected hash, the
destination copy is deleted, the source file is left untouched, the
operation returns without committing a path, and the move-intent record
remains for a later retry. -/
theorem moveFile_verify_gate (w0 : World) (req : MoveRequest) (op : String)
    (d : FileData) (ai : AssetInfo)
    (hold : req.oldPath = some op) (hne : op ≠ "") (hnp : op ≠ req.newPath)
    (hget : getByEntity w0 req.entityId req.pathType = none)
    (hsrc : fsLookup w0.fs op = some d)
    (hfault : w0.renameFault = some ErrCode.exdev)
    (hai : req.assetInfo = some ai)
    (hmis : ai.sizeInBytes ≠ d.size ∨
      (w0.hashVerificationEnabled = true ∧ ai.sizeInBytes = d.size ∧
        ai.checksum ≠ d.checksum)) :
    (moveFile w0 req).outcome = MoveOutcome.verifyFallbackFailed ∧
    fsLookup (moveFile w0 req).world.fs req.newPath = none ∧
    fsLookup (moveFile w0 req).world.fs op = some d ∧
    (moveFile w0 req).world.commits = w0.commits ∧
    getByEntity (moveFile w0 req).world req.entityId req.pathType =
      some ⟨w0.nextId, req.entityId, req.pathType, op, req.newPath⟩ := by
  have hbase : ∀ W : World,
      W = { w0 with
          fs := fsRemove (fsSet w0.fs req.newPath d) req.newPath,
          moves := w0.moves ++ [⟨w0.nextId, req.entityId, req.pathType, op, req.newPath⟩],
          nextId := w0.nextId + 1 } →
      fsLookup W.fs req.newPath = none ∧
      fsLookup W.fs op = some d ∧
      W.commits = w0.commits ∧
      getByEntity W req.entityId req.pathType =
        some ⟨w0.nextId, req.entityId, req.pathType, op, req.newPath⟩ := by
    intro W hW
    subst hW
    refine ⟨?_, ?_, rfl, ?_⟩
    · simp [fsLookup_fsRemove]
    · rw [fsLookup_fsRemove, if_neg hnp, fsLookup_fsSet, if_neg hnp, hsrc]
    · show findMove (w0.moves ++ [_]) _ _ = _
      rw [findMove_append _ _ _ _ hget]
      simp [findMove]
  rcases hmis with hsz | ⟨hhv, hszeq, hck⟩
  · rw [moveFile_fallback_mismatch_eq1 w0 req op d ai hold hne hnp hget hsrc hfault
      hai (Ne.symm hsz)]
    exact ⟨rfl, (hbase _ rfl).1, (hbase _ rfl).2.1, (hbase _ rfl).2.2.1,
      (hbase _ rfl).2.2.2⟩
  · rw [moveFile_fallback_mismatch_eq2 w0 req op d ai hold hne hnp hget hsrc hfault
      hai hhv hszeq.symm (Ne.symm hck)]
    exact ⟨rfl, (hbase _ rfl).1, (hbase _ rfl).2.1, (hbase _ rfl).2.2.1,
      (hbase _ rfl).2.2.2⟩

theorem moveFile_verify_gate_witness :
    (moveFile ⟨[("/l/a.jpg", ⟨100, [7, 7], 10, 20⟩)], [], 0, [], true,
        some ErrCode.exdev⟩
      ⟨"e1", PathType.original, some "/l/a.jpg", "/l/b.jpg",
        some ⟨99, [7, 7]⟩⟩).outcome = MoveOutcome.verifyFallbackFailed ∧
    fsLookup (moveFile ⟨[("/l/a.jpg", ⟨100, [7, 7], 10, 20⟩)], [], 0, [], true,
        some ErrCode.exdev⟩
      ⟨"e1", PathType.original, some "/l/a.jpg", "/l/b.jpg",
        some ⟨99, [7, 7]⟩⟩).world.fs "/l/b.jpg" = none ∧
    fsLookup (moveFile ⟨[("/l/a.jpg", ⟨100, [7, 7], 10, 20⟩)], [], 0, [], true,
        some ErrCode.exdev⟩
      ⟨"e1", PathType.original, some "/l/a.jpg", "/l/b.jpg",
        some ⟨99, [7, 7]⟩⟩).world.fs "/l/a.jpg" = some ⟨100, [7, 7], 10, 20⟩ ∧
    (moveFile ⟨[("/l/a.jpg", ⟨100, [7, 7], 10, 20⟩)], [], 0, [], true,
        some ErrCode.exdev⟩
      ⟨"e1", PathType.original, some "/l/a.jpg", "/l/b.jpg",
        some ⟨99, [7, 7]⟩⟩).world.commits = [] ∧
    getByEntity (moveFile ⟨[("/l/a.jpg", ⟨100, [7, 7], 10, 20⟩)], [], 0, [], true,
        some ErrCode.exdev⟩
      ⟨"e1", PathType.original, some "/l/a.jpg", "/l/b.jpg",
        some ⟨99, [7, 7]⟩⟩).world "e1" PathType.original =
      some ⟨0, "e1", PathType.original, "/l/a.jpg", "/l/b.jpg"⟩ :=
  moveFile_verify_gate _ _ "/l/a.jpg" ⟨100, [7, 7], 10, 20⟩ ⟨99, [7, 7]⟩ rfl
    (by decide) (by decide) rfl rfl rfl rfl (Or.inl (by decide))

/-- C4: a rename failure with the cross-device code triggers the fallback
copy old→new, then verification, then copying the source's atime/mtime
onto the destination, then deletion of the source, in that order, ending
committed with the destination carrying the source's data and timestamps;
a rename failure with any other code returns with the file map untouched,
nothing committed, and the move intent left intact. -/
theorem moveFile_exdev_fallback :
    (∀ (w0 : World) (req : MoveRequest) (op : String) (d : FileData),
      req.oldPath = some op → op ≠ "" → op ≠ req.newPath →
      getByEntity w0 req.entityId req.pathType = none →
      fsLookup w0.fs op = some d →
      w0.renameFault = some ErrCode.exdev →
      ¬(req.pathType = PathType.original ∧ req.assetInfo = none) →
      (∀ ai, req.assetInfo = some ai → ai.sizeInBytes = d.size ∧
        (w0.hashVerificationEnabled = true → ai.checksum = d.checksum)) →
      (moveFile w0 req).outcome = MoveOutcome.finished ∧
      fsLookup (moveFile w0 req).world.fs op = none ∧
      fsLookup (moveFile w0 req).world.fs req.newPath = some d ∧
      List.Sublist
        [Event.copy op req.newPath, Event.verifyOk op req.newPath,
         Event.setTimes req.newPath d.atimeMs d.mtimeMs, Event.unlink op]
        (moveFile w0 req).trace) ∧
    (∀ (w0 : World) (req : MoveRequest) (op : String) (d : FileData) (c : ErrCode),
      req.oldPath = some op → op ≠ "" → op ≠ req.newPath →
      getByEntity w0 req.entityId req.pathType = none →
      fsLookup w0.fs op = some d →
      w0.renameFault = some c → c ≠ ErrCode.exdev →
      ¬(req.pathType = PathType.original ∧ req.assetInfo = none) →
      (moveFile w0 req).outcome = MoveOutcome.renameError c ∧
      (moveFile w0 req).world.fs = w0.fs ∧
      (moveFile w0 req).world.commits = w0.commits ∧
      getByEntity (moveFile w0 req).world req.entityId req.pathType =
        some ⟨w0.nextId, req.entityId, req.pathType, op, req.newPath⟩) := by
  constructor
  · intro w0 req op d hold hne hnp hget hsrc hfault hguard hvp
    have hfs1 : fsLookup (fsRemove (fsSet (fsSet w0.fs req.newPath d) req.newPath d)
        op) op = none := by
      simp [fsLookup_fsRemove]
    have hfs2 : fsLookup (fsRemove (fsSet (fsSet w0.fs req.newPath d) req.newPath d)
        op) req.newPath = some d := by
      rw [fsLookup_fsRemove, if_neg (fun h => hnp h.symm), fsLookup_fsSet,
        if_pos rfl]
    rcases hai : req.assetInfo with _ | ai
    · rw [moveFile_fallback_ok_eq_none w0 req op d hold hne hnp hget hsrc hfault hai
        (fun h => hguard ⟨h, hai⟩)]
      refine ⟨rfl, hfs1, hfs2, ?_⟩
      refine List.Sublist.trans ?_ (List.sublist_append_right _ _)
      refine List.Sublist.cons _ (List.Sublist.cons _ (List.Sublist.cons _ ?_))
      refine List.Sublist.cons₂ _ ?_
      refine List.Sublist.cons _ (List.Sublist.cons _ ?_)
      refine List.Sublist.cons₂ _ ?_
      refine List.Sublist.cons _ ?_
      refine List.Sublist.cons₂ _ ?_
      refine List.Sublist.cons₂ _ ?_
      exact List.nil_sublist _
    · obtain ⟨hs, hc⟩ := hvp ai hai
      cases hhv : w0.hashVerificationEnabled
      · rw [moveFile_fallback_ok_eq_nohash w0 req op d ai hold hne hnp hget hsrc
          hfault hai hhv hs.symm]
        refine ⟨rfl, hfs1, hfs2, ?_⟩
        refine List.Sublist.trans ?_ (List.sublist_append_right _ _)
        refine List.Sublist.cons _ (List.Sublist.cons _ (List.Sublist.cons _ ?_))
        refine List.Sublist.cons₂ _ ?_
        refine List.Sublist.cons _ (List.Sublist.cons _ ?_)
        refine List.Sublist.cons₂ _ ?_
        refine List.Sublist.cons _ ?_
        refine List.Sublist.cons₂ _ ?_
        refine List.Sublist.cons₂ _ ?_
        exact List.nil_sublist _
      · rw [moveFile_fallback_ok_eq_hash w0 req op d ai hold hne hnp hget hsrc
          hfault hai hhv hs.symm ((hc hhv).symm)]
        refine ⟨rfl, hfs1, hfs2, ?_⟩
        refine List.Sublist.trans ?_ (List.sublist_append_right _ _)
        refine List.Sublist.cons _ (List.Sublist.cons _ (List.Sublist.cons _ ?_))
        refine List.Sublist.cons₂ _ ?_
        refine List.Sublist.cons _ (List.Sublist.cons _ (List.Sublist.cons _ ?_))
        refine List.Sublist.cons₂ _ ?_
        refine List.Sublist.cons _ ?_
        refine List.Sublist.cons₂ _ ?_
        refine List.Sublist.cons₂ _ ?_
        exact List.nil_sublist _
  · intro w0 req op d c hold hne hnp hget hsrc hfault hc hguard
    rw [moveFile_rename_err_eq w0 req op d c hold hne hnp hget hsrc hfault hc hguard]
    refine ⟨rfl, rfl, rfl, ?_⟩
    show findMove (w0.moves ++ [_]) _ _ = _
    rw [findMove_append _ _ _ _ hget]
    simp [findMove]

theorem moveFile_exdev_fallback_witness :
    ((moveFile ⟨[("/l/a.jpg", ⟨100, [7, 7], 10, 20⟩)], [], 0, [], true,
        some ErrCode.exdev⟩
      ⟨"e1", PathType.original, some "/l/a.jpg", "/l/b.jpg",
        some ⟨100, [7, 7]⟩⟩).outcome = MoveOutcome.finished ∧
     fsLookup (moveFile ⟨[("/l/a.jpg", ⟨100, [7, 7], 10, 20⟩)], [], 0, [], true,
        some ErrCode.exdev⟩
      ⟨"e1", PathType.original, some "/l/a.jpg", "/l/b.jpg",
        some ⟨100, [7, 7]⟩⟩).world.fs "/l/a.jpg" = none ∧
     fsLookup (moveFile ⟨[("/l/a.jpg", ⟨100, [7, 7], 10, 20⟩)], [], 0, [], true,
        some ErrCode.exdev⟩
      ⟨"e1", PathType.original, some "/l/a.jpg", "/l/b.jpg",
        some ⟨100, [7, 7]⟩⟩).world.fs "/l/b.jpg" = some ⟨100, [7, 7], 10, 20⟩ ∧
     List.Sublist
       [Event.copy "/l/a.jpg" "/l/b.jpg", Event.verifyOk "/l/a.jpg" "/l/b.jpg",
        Event.setTimes "/l/b.jpg" 10 20, Event.unlink "/l/a.jpg"]
       (moveFile ⟨[("/l/a.jpg", ⟨100, [7, 7], 10, 20⟩)], [], 0, [], true,
          some ErrCode.exdev⟩
        ⟨"e1", PathType.original, some "/l/a.jpg", "/l/b.jpg",
          some ⟨100, [7, 7]⟩⟩).trace) ∧
    ((moveFile ⟨[("/l/a.jpg", ⟨100, [7, 7], 10, 20⟩)], [], 0, [], false,
        some ErrCode.eio⟩
      ⟨"e1", PathType.sidecar, some "/l/a.jpg", "/l/b.jpg", none⟩).outcome =
        MoveOutcome.renameError ErrCode.eio ∧
     (moveFile ⟨[("/l/a.jpg", ⟨100, [7, 7], 10, 20⟩)], [], 0, [], false,
        some ErrCode.eio⟩
      ⟨"e1", PathType.sidecar, some "/l/a.jpg", "/l/b.jpg", none⟩).world.fs =
        [("/l/a.jpg", ⟨100, [7, 7], 10, 20⟩)] ∧
     (moveFile ⟨[("/l/a.jpg", ⟨100, [7, 7], 10, 20⟩)], [], 0, [], false,
        some ErrCode.eio⟩
      ⟨"e1", PathType.sidecar, some "/l/a.jpg", "/l/b.jpg", none⟩).world.commits =
        [] ∧
     getByEntity (moveFile ⟨[("/l/a.jpg", ⟨100, [7, 7], 10, 20⟩)], [], 0, [], false,
        some ErrCode.eio⟩
      ⟨"e1", PathType.sidecar, some "/l/a.jpg", "/l/b.jpg", none⟩).world "e1"
        PathType.sidecar =
      some ⟨0, "e1", PathType.sidecar, "/l/a.jpg", "/l/b.jpg"⟩) :=
  ⟨moveFile_exdev_fallback.1 _ _ "/l/a.jpg" ⟨100, [7, 7], 10, 20⟩ rfl (by decide)
    (by decide) rfl rfl rfl (by decide)
    (fun ai hai => by cases hai; exact ⟨rfl, fun _ => rfl⟩),
   moveFile_exdev_fallback.2 _ _ "/l/a.jpg" ⟨100, [7, 7], 10, 20⟩ ErrCode.eio rfl
    (by decide) (by decide) rfl rfl rfl (by decide) (by decide)⟩

/-- C7 counterexample: after a successful first `moveFile` call, a second
call with the literally same arguments performs I/O — its trace is
nonempty and it mutates the intent store (a fresh intent is created and
left behind by the failing rename). -/
theorem moveFile_second_call_counterexample :
    (moveFile ⟨[("/l/a.jpg", ⟨100, [7, 7], 10, 20⟩)], [], 0, [], false, none⟩
      ⟨"e1", PathType.sidecar, some "/l/a.jpg", "/l/b.jpg", none⟩).outcome =
      MoveOutcome.finished ∧
    (moveFile
      (moveFile ⟨[("/l/a.jpg", ⟨100, [7, 7], 10, 20⟩)], [], 0, [], false, none⟩
        ⟨"e1", PathType.sidecar, some "/l/a.jpg", "/l/b.jpg", none⟩).world
      ⟨"e1", PathType.sidecar, some "/l/a.jpg", "/l/b.jpg", none⟩).trace ≠ [] ∧
    (moveFile
      (moveFile ⟨[("/l/a.jpg", ⟨100, [7, 7], 10, 20⟩)], [], 0, [], false, none⟩
        ⟨"e1", PathType.sidecar, some "/l/a.jpg", "/l/b.jpg", none⟩).world
      ⟨"e1", PathType.sidecar, some "/l/a.jpg", "/l/b.jpg", none⟩).world.moves ≠
      (moveFile ⟨[("/l/a.jpg", ⟨100, [7, 7], 10, 20⟩)], [], 0, [], false, none⟩
        ⟨"e1", PathType.sidecar, some "/l/a.jpg", "/l/b.jpg", none⟩).world.moves := by
  decide

/-- C7 (amended): `moveFile` performs no I/O when `oldPath` is null,
empty, or equal to `newPath`; but a second call with the literally same
arguments after a successful first call is not I/O-free: it records a
fresh move intent, attempts a rename of the now-missing source which fails
with `ENOENT`, and returns leaving that intent behind — while the file map
and the committed paths stay unchanged. -/
theorem moveFile_idempotence_amended :
    (∀ (w : World) (req : MoveRequest),
      (req.oldPath = none ∨ req.oldPath = some "" ∨ req.oldPath = some req.newPath) →
      moveFile w req = ⟨w, [], MoveOutcome.noop⟩) ∧
    (∀ (w0 : World) (req : MoveRequest) (op : String) (d : FileData),
      req.oldPath = some op → op ≠ "" → op ≠ req.newPath →
      getByEntity w0 req.entityId req.pathType = none →
      (∀ r ∈ w0.moves, r.id ≠ w0.nextId) →
      fsLookup w0.fs op = some d →
      w0.renameFault = none →
      ¬(req.pathType = PathType.original ∧ req.assetInfo = none) →
      (moveFile w0 req).outcome = MoveOutcome.finished ∧
      (moveFile (moveFile w0 req).world req).outcome =
        MoveOutcome.renameError ErrCode.enoent ∧
      Event.createIntent req.entityId req.pathType op req.newPath ∈
        (moveFile (moveFile w0 req).world req).trace ∧
      (moveFile (moveFile w0 req).world req).world.fs = (moveFile w0 req).world.fs ∧
      (moveFile (moveFile w0 req).world req).world.commits =
        (moveFile w0 req).world.commits ∧
      getByEntity (moveFile (moveFile w0 req).world req).world req.entityId
          req.pathType =
        some ⟨(moveFile w0 req).world.nextId, req.entityId, req.pathType, op,
          req.newPath⟩) := by
  constructor
  · intro w req h
    rcases h with h | h | h
    · simp [moveFile, h]
    · simp [moveFile, h]
    · by_cases he : req.newPath = "" <;> simp [moveFile, h, he]
  · intro w0 req op d hold hne hnp hget hfresh hsrc hfault hguard
    have heq1 := moveFile_rename_ok_eq w0 req op d hold hne hnp hget hsrc hfault
      hguard
    have hmoves1 : (moveFile w0 req).world.moves = w0.moves := by
      rw [heq1]
      show movesDelete (w0.moves ++ [_]) w0.nextId = w0.moves
      rw [movesDelete_append, movesDelete_eq_self w0.moves w0.nextId hfresh]
      simp [movesDelete]
    have hget2 : getByEntity (moveFile w0 req).world req.entityId req.pathType =
        none := by
      show findMove (moveFile w0 req).world.moves req.entityId req.pathType = none
      rw [hmoves1]
      exact hget
    have hsrc2 : fsLookup (moveFile w0 req).world.fs op = none := by
      rw [heq1]
      show fsLookup (fsSet (fsRemove w0.fs op) req.newPath d) op = none
      rw [fsLookup_fsSet, if_neg hnp, fsLookup_fsRemove, if_pos rfl]
    have heq2 := moveFile_rename_enoent_eq (moveFile w0 req).world req op hold hne
      hnp hget2 hsrc2 hguard
    refine ⟨by rw [heq1], by rw [heq2], ?_, by rw [heq2], by rw [heq2], ?_⟩
    · rw [heq2]
      simp
    · rw [heq2]
      show findMove ((moveFile w0 req).world.moves ++ [_]) _ _ = _
      rw [findMove_append _ _ _ _ hget2]
      simp [findMove]

theorem moveFile_idempotence_amended_witness :
    moveFile ⟨[("/l/a.jpg", ⟨100, [7, 7], 10, 20⟩)], [], 0, [], false, none⟩
      ⟨"e1", PathType.sidecar, some "/l/b.jpg", "/l/b.jpg", none⟩ =
      ⟨⟨[("/l/a.jpg", ⟨100, [7, 7], 10, 20⟩)], [], 0, [], false, none⟩, [],
        MoveOutcome.noop⟩ ∧
    ((moveFile ⟨[("/l/x.jpg", ⟨5, [1], 3, 4⟩)], [], 0, [], false, none⟩
      ⟨"e2", PathType.thumbnail, some "/l/x.jpg", "/l/y.jpg", none⟩).outcome =
      MoveOutcome.finished ∧
     (moveFile
       (moveFile ⟨[("/l/x.jpg", ⟨5, [1], 3, 4⟩)], [], 0, [], false, none⟩
         ⟨"e2", PathType.thumbnail, some "/l/x.jpg", "/l/y.jpg", none⟩).world
       ⟨"e2", PathType.thumbnail, some "/l/x.jpg", "/l/y.jpg", none⟩).outcome =
      MoveOutcome.renameError ErrCode.enoent) :=
  ⟨moveFile_idempotence_amended.1 _ _ (Or.inr (Or.inr rfl)),
   ⟨(moveFile_idempotence_amended.2 ⟨[("/l/x.jpg", ⟨5, [1], 3, 4⟩)], [], 0, [],
      false, none⟩ ⟨"e2", PathType.thumbnail, some "/l/x.jpg", "/l/y.jpg", none⟩
      "/l/x.jpg" ⟨5, [1], 3, 4⟩ rfl (by decide)
      (by decide) rfl (by simp) rfl rfl (by decide)).1,
    (moveFile_idempotence_amended.2 ⟨[("/l/x.jpg", ⟨5, [1], 3, 4⟩)], [], 0, [],
      false, none⟩ ⟨"e2", PathType.thumbnail, some "/l/x.jpg", "/l/y.jpg", none⟩
      "/l/x.jpg" ⟨5, [1], 3, 4⟩ rfl (by decide)
      (by decide) rfl (by simp) rfl rfl (by decide)).2.1⟩⟩

/-- C1: in every execution of `moveFile`, any deletion of a path other
than the request's new path (i.e. of the move's source) happens only after
that source was copied onto the new path and the copy passed verification;
and passing verification guarantees the destination's size equals the
expected size and, when checksum verification is enabled and asset info is
supplied, its content hash equals the expected checksum.  (A move performed
by a single successful rename issues no unlink at all.) -/
theorem moveFile_source_delete_guarded :
    (∀ (w : World) (req : MoveRequest),
      (scanTrace req.newPath (moveFile w req).trace).ok = true) ∧
    (∀ (w : World) (o n : String) (i : Option AssetInfo) (tv : List Event),
      verifyNewPathContentsMatchesExpected w o n i = (tv, .ok true) →
      ∃ dN, statW w n = .ok dN ∧ dN.size = expectedSizeOf w o i ∧
        (w.hashVerificationEnabled = true → ∀ ai, i = some ai →
          dN.checksum = ai.checksum)) :=
  ⟨moveFile_scan, fun w o n i tv hv => verify_ok_true_char w o n i tv hv⟩

theorem moveFile_source_delete_guarded_witness :
    (scanTrace "/l/b.jpg"
      (moveFile ⟨[("/l/a.jpg", ⟨100, [7, 7], 10, 20⟩)], [], 0, [], true,
          some ErrCode.exdev⟩
        ⟨"e1", PathType.original, some "/l/a.jpg", "/l/b.jpg",
          some ⟨100, [7, 7]⟩⟩).trace).ok = true ∧
    (∃ dN, statW ⟨[("/l/o.jpg", ⟨100, [7], 10, 20⟩), ("/l/n.jpg", ⟨100, [7], 11, 21⟩)],
        [], 0, [], true, none⟩ "/l/n.jpg" = .ok dN ∧
      dN.size = expectedSizeOf ⟨[("/l/o.jpg", ⟨100, [7], 10, 20⟩),
          ("/l/n.jpg", ⟨100, [7], 11, 21⟩)], [], 0, [], true, none⟩ "/l/o.jpg"
          (some ⟨100, [7]⟩) ∧
      ((⟨[("/l/o.jpg", ⟨100, [7], 10, 20⟩), ("/l/n.jpg", ⟨100, [7], 11, 21⟩)],
          [], 0, [], true, none⟩ : World).hashVerificationEnabled = true →
        ∀ ai, (some ⟨100, [7]⟩ : Option AssetInfo) = some ai →
          dN.checksum = ai.checksum)) :=
  ⟨moveFile_source_delete_guarded.1
    ⟨[("/l/a.jpg", ⟨100, [7, 7], 10, 20⟩)], [], 0, [], true, some ErrCode.exdev⟩
    ⟨"e1", PathType.original, some "/l/a.jpg", "/l/b.jpg", some ⟨100, [7, 7]⟩⟩,
   moveFile_source_delete_guarded.2
    ⟨[("/l/o.jpg", ⟨100, [7], 10, 20⟩), ("/l/n.jpg", ⟨100, [7], 11, 21⟩)],
      [], 0, [], true, none⟩ "/l/o.jpg" "/l/n.jpg" (some ⟨100, [7]⟩)
     [.statFile "/l/o.jpg", .statFile "/l/n.jpg", .hashOfFile "/l/n.jpg",
      .verifyOk "/l/o.jpg" "/l/n.jpg"] rfl⟩

/-- C3: the crash-recovery branch where only the intent's new path exists
is broken: although the new file's size and checksum match the supplied
asset info exactly — the case the spec says must commit directly —
`moveFile` throws `ENOENT` from the unconditional `stat` of the missing
old path inside `verifyNewPathContentsMatchesExpected`, and mutates
nothing.  Evaluated here at the concrete failing input. -/
theorem moveFile_recovery_new_only_throws :
    moveFile ⟨[("/lib/new.jpg", ⟨100, [7], 10, 20⟩)],
        [⟨1, "a1", PathType.original, "/lib/old.jpg", "/lib/new.jpg"⟩], 2, [],
        true, none⟩
      ⟨"a1", PathType.original, some "/lib/old.jpg", "/lib/new.jpg",
        some ⟨100, [7]⟩⟩ =
      ⟨⟨[("/lib/new.jpg", ⟨100, [7], 10, 20⟩)],
        [⟨1, "a1", PathType.original, "/lib/old.jpg", "/lib/new.jpg"⟩], 2, [],
        true, none⟩,
       [.mkdirs "/lib", .getIntent "a1" PathType.original,
        .checkExists "/lib/old.jpg" false, .checkExists "/lib/new.jpg" true,
        .statFile "/lib/old.jpg"],
       MoveOutcome.threw (IOErr.enoent "/lib/old.jpg")⟩ := by
  decide

theorem parseCloudPath_spec_witness :
    parseCloudPath "s3.amazonaws.com/bucket/u1/a.jpg" =
      .ok ⟨"s3.amazonaws.com", "bucket", "u1/a.jpg"⟩ ∧
    ∃ msg, parseCloudPath "host.dev/bucket" = .error msg := by
  constructor
  · rw [(parseCloudPath_spec "s3.amazonaws.com/bucket/u1/a.jpg").2 (by decide)]
    rfl
  · exact (parseCloudPath_spec "host.dev/bucket").1 (by decide)

theorem rename_dispatch_witness :
    renameRepo ⟨⟨true, true, true⟩, [], [], true, true, true⟩
        "s3.amazonaws.com/bkt/a.jpg" "s3.amazonaws.com/bkt/b/c.jpg" =
      ([.copyObject "s3.amazonaws.com" "bkt" ("bkt" ++ "/" ++ "a.jpg") "b/c.jpg",
        .deleteObject "s3.amazonaws.com" "bkt" "a.jpg"], .ok .s3Renamed) ∧
    renameRepo ⟨⟨true, true, true⟩, [], [], true, true, true⟩ "/a/x.jpg" "/a/y.jpg" =
      ([], .ok (.fsRename "/a/x.jpg" "/a/y.jpg")) ∧
    renameRepo ⟨⟨true, true, true⟩, [], [], true, true, true⟩
        "s3.amazonaws.com/b1/a.jpg" "s3.amazonaws.com/b2/a.jpg" =
      ([], .error ("Cannot rename between different remote storage buckets: "
        ++ "b1" ++ " -> " ++ "b2")) ∧
    renameRepo ⟨⟨true, true, true⟩, [], [], true, true, true⟩
        "/a/x.jpg" "s3.amazonaws.com/bkt/a.jpg" =
      ([], .error ("Cannot rename between different storage backends: "
        ++ "/a/x.jpg" ++ " -> " ++ "s3.amazonaws.com/bkt/a.jpg")) :=
  ⟨rename_dispatch.2.1 ⟨⟨true, true, true⟩, [], [], true, true, true⟩
    "s3.amazonaws.com/bkt/a.jpg" "s3.amazonaws.com/bkt/b/c.jpg"
    ⟨"s3.amazonaws.com", "bkt", "a.jpg"⟩ ⟨"s3.amazonaws.com", "bkt", "b/c.jpg"⟩
    (by decide) (by decide) rfl rfl rfl
    ⟨⟨"AWS", "us-east-1"⟩, rfl⟩ ⟨⟨"AWS", "us-east-1"⟩, rfl⟩ rfl rfl,
   rename_dispatch.1 ⟨⟨true, true, true⟩, [], [], true, true, true⟩
    "/a/x.jpg" "/a/y.jpg" (by decide) (by decide),
   rename_dispatch.2.2.2.2 ⟨⟨true, true, true⟩, [], [], true, true, true⟩
    "s3.amazonaws.com/b1/a.jpg" "s3.amazonaws.com/b2/a.jpg"
    ⟨"s3.amazonaws.com", "b1", "a.jpg"⟩ ⟨"s3.amazonaws.com", "b2", "a.jpg"⟩
    (by decide) (by decide) rfl rfl (by decide),
   rename_dispatch.2.2.2.1 ⟨⟨true, true, true⟩, [], [], true, true, true⟩
    "/a/x.jpg" "s3.amazonaws.com/bkt/a.jpg" (by decide)⟩

end Immich
